import Mathlib

/-!
Shallow embedding of the sema-chat orchestration core
(src/backend/sema-chat/app), covering:

* the data model of app/models/schemas.py (ChatMessage, ConversationHistory,
  StreamChunk), with timestamps modelled as natural numbers and metadata as an
  association list of optional string values;
* SessionManager (app/services/session_manager.py), in-memory storage path
  (use_redis = False); the sessions dict is modelled as a function from
  session id to an optional ConversationHistory;
* ModelManager (app/services/model_manager.py): initialize / is_ready /
  switch_model, with the environment (settings validation plus backend
  construction and load_model) abstracted as boolean-valued functions;
* ModelBackend.validate_parameters (app/services/model_backends/base.py),
  floats modelled as rationals;
* OpenAIAPIBackend.generate_stream (app/services/model_backends/openai_api.py)
  over an abstract upstream chunk sequence;
* ChatManager.process_chat_request and process_streaming_chat_request
  (app/services/chat_manager.py).
-/

namespace SemaChat

/-- Mirror of schemas.ChatMessage: role, content, timestamp (as Nat),
metadata dict modelled as an association list with optional values
(a Python value of None becomes Option.none). -/
structure ChatMessage where
  role : String
  content : String
  timestamp : Nat
  metadata : List (String × Option String)
deriving DecidableEq

/-- Mirror of schemas.ConversationHistory. -/
structure ConversationHistory where
  session_id : String
  messages : List ChatMessage
  created_at : Nat
  updated_at : Nat
  message_count : Nat
deriving DecidableEq

/-- Mirror of schemas.StreamChunk (timestamp omitted: it is defaulted and
never read by the orchestration code). -/
structure StreamChunk where
  content : String
  session_id : String
  message_id : String
  chunk_id : Nat
  is_final : Bool
deriving DecidableEq

/-- The SessionManager.sessions dict (in-memory path), modelled as a map. -/
def Sessions : Type := String → Option ConversationHistory

/-- Dict write: self.sessions[session.session_id] = session
(SessionManager._store_session, memory path). -/
def storeSession (ss : Sessions) (s : ConversationHistory) : Sessions :=
  fun k => if k = s.session_id then some s else ss k

/-- Dict removal: self.sessions.pop(session_id, None). -/
def popSession (ss : Sessions) (sid : String) : Sessions :=
  fun k => if k = sid then none else ss k

/-- State of a SessionManager: the sessions dict plus the configured
settings.max_messages_per_session cap (non-positive ints behave exactly like
0 in the code, because the only use is the guard max_messages_per_session > 0,
so Nat is faithful). -/
structure SessionState where
  sessions : Sessions
  maxMessages : Nat

/-- SessionManager.get_session (memory path). -/
def getSession (st : SessionState) (sid : String) : Option ConversationHistory :=
  st.sessions sid

/-- SessionManager.create_session for the user_id = None call sites used by
the orchestrator (the per-user session-limit branch is skipped when no
user_id is supplied, as in ChatManager). Returns the new state and the bool
result. -/
def createSession (st : SessionState) (sid : String) (now : Nat) : SessionState × Bool :=
  match st.sessions sid with
  | some _ => (st, true)
  | none =>
      ({ st with sessions := storeSession st.sessions ⟨sid, [], now, now, 0⟩ }, true)

/-- The trimming branch of SessionManager.add_message: when the cap is
positive and the stored history has reached it, remove
(len - cap + 1) oldest messages to make room for the next append. -/
def evictForAppend (maxMessages : Nat) (msgs : List ChatMessage) : List ChatMessage :=
  if 0 < maxMessages ∧ maxMessages ≤ msgs.length then
    msgs.drop (msgs.length - maxMessages + 1)
  else msgs

/-- The read-modify-write body of SessionManager.add_message once a session
object is in hand: trim when the cap is reached, append, refresh
message_count and updated_at, store. -/
def addToSession (st : SessionState) (sess : ConversationHistory)
    (m : ChatMessage) (now : Nat) : SessionState × Bool :=
  let base := evictForAppend st.maxMessages sess.messages
  let msgs := base ++ [m]
  let sess1 : ConversationHistory :=
    { sess with messages := msgs, message_count := msgs.length, updated_at := now }
  ({ st with sessions := storeSession st.sessions sess1 }, true)

/-- The session record produced by one add_message append: trimmed history
plus the new message, refreshed message_count and updated_at. -/
def appendedSession (mx : Nat) (sess : ConversationHistory) (m : ChatMessage)
    (now : Nat) : ConversationHistory :=
  { sess with
      messages := evictForAppend mx sess.messages ++ [m],
      message_count := (evictForAppend mx sess.messages ++ [m]).length,
      updated_at := now }

/-- SessionManager.add_message: get or create the session, trim the oldest
messages when the cap is reached, append, update message_count and
updated_at, store. -/
def addMessage (st : SessionState) (sid : String) (m : ChatMessage)
    (now : Nat) : SessionState × Bool :=
  let st0 :=
    match st.sessions sid with
    | some _ => st
    | none => (createSession st sid now).1
  match st0.sessions sid with
  | none => (st0, false)
  | some sess => addToSession st0 sess m now

/-- SessionManager.delete_session (memory path): pops the key and returns
True unconditionally. -/
def deleteSession (st : SessionState) (sid : String) : SessionState × Bool :=
  ({ st with sessions := popSession st.sessions sid }, true)

/-- SessionManager.get_session_messages: [] for a missing session, the most
recent limit messages when a positive limit is given, otherwise the whole
list. -/
def getSessionMessages (st : SessionState) (sid : String)
    (limit : Option Nat) : List ChatMessage :=
  match st.sessions sid with
  | none => []
  | some sess =>
      match limit with
      | some l =>
          if 0 < l then sess.messages.drop (sess.messages.length - l)
          else sess.messages
      | none => sess.messages

/-- Folding a sequence of add_message calls into a session, all with the same
timestamp (the timestamp does not influence control flow). -/
def appendAll (st : SessionState) (sid : String) (msgs : List ChatMessage)
    (now : Nat) : SessionState :=
  msgs.foldl (fun s m => (addMessage s sid m now).1) st

/-- The message_count invariant of the spec data model: every stored session
has message_count equal to the length of its message sequence. -/
def MsgCountOk (st : SessionState) : Prop :=
  ∀ sid sess, st.sessions sid = some sess →
    sess.message_count = sess.messages.length

/-- A constructed-and-loaded backend instance held by the ModelManager:
its backend type, model name, and its is_loaded flag. -/
structure Backend where
  btype : String
  name : String
  loaded : Bool
deriving DecidableEq

/-- ModelManager state: current_backend, backend_type, model_name,
is_initialized. -/
structure ManagerState where
  currentBackend : Option Backend
  backendType : String
  modelName : String
  initializedFlag : Bool
deriving DecidableEq

/-- Environment of ModelManager.initialize: settings.validate_model_config()
(which reads the immutable settings object, so it is a constant), and
whether _create_backend plus backend.load_model() succeeds for a given
(backend_type, model_name) pair. All three failure modes of initialize
(validation False, _create_backend None, load_model False or raising) leave
the manager state unchanged and return False, so they are collapsed into
loads being false. -/
structure ModelEnv where
  validateOk : Bool
  loads : String → String → Bool

/-- ModelManager.initialize: on success installs a loaded backend and sets
is_initialized; on any failure returns False leaving the state unchanged. -/
def initializeManager (env : ModelEnv) (st : ManagerState) : ManagerState × Bool :=
  if env.validateOk then
    if env.loads st.backendType st.modelName then
      ({ st with
          currentBackend := some ⟨st.backendType, st.modelName, true⟩,
          initializedFlag := true }, true)
    else (st, false)
  else (st, false)

/-- ModelManager.is_ready: initialized, a current backend exists, and it
reports is_model_loaded(). -/
def isReady (st : ManagerState) : Bool :=
  st.initializedFlag &&
    (match st.currentBackend with
     | some b => b.loaded
     | none => false)

/-- Python str.lower() restricted to ASCII letters (backend type strings are
ASCII identifiers). -/
def pyLowerChar (c : Char) : Char :=
  if 65 ≤ c.toNat ∧ c.toNat ≤ 90 then Char.ofNat (c.toNat + 32) else c

/-- Python str.lower() on a string. -/
def pyLower (s : String) : String :=
  String.mk (s.data.map pyLowerChar)

/-- ModelManager.switch_model: unload and drop the current backend, install
the new name (and lower-cased type when given), try initialize; on failure
restore the previous name and type and re-run initialize, returning False. -/
def switchModel (env : ModelEnv) (st : ManagerState) (newName : String)
    (newType : Option String) : ManagerState × Bool :=
  let st1 : ManagerState := { st with currentBackend := none }
  let oldName := st.modelName
  let oldType := st.backendType
  let st2 : ManagerState :=
    { st1 with
        modelName := newName,
        backendType :=
          match newType with
          | some t => pyLower t
          | none => st1.backendType }
  let r := initializeManager env st2
  if r.2 then (r.1, true)
  else
    let st4 : ManagerState := { r.1 with modelName := oldName, backendType := oldType }
    ((initializeManager env st4).1, false)

/-- Validated generation parameters, as returned by
ModelBackend.validate_parameters. Python floats are modelled as rationals,
Python ints as integers. -/
structure ValidatedParams where
  temperature : ℚ
  maxTokens : ℤ
  topP : ℚ
  topK : ℤ
deriving DecidableEq

/-- Python min on two rationals (returns the first argument on ties). -/
def pyMinQ (a b : ℚ) : ℚ := if a ≤ b then a else b

/-- Python max on two rationals (returns the first argument on ties). -/
def pyMaxQ (a b : ℚ) : ℚ := if b ≤ a then a else b

/-- Python min on two integers. -/
def pyMinI (a b : ℤ) : ℤ := if a ≤ b then a else b

/-- Python max on two integers. -/
def pyMaxI (a b : ℤ) : ℤ := if b ≤ a then a else b

/-- ModelBackend.validate_parameters: kwargs.get defaults (0.7, 512, 0.9, 50)
followed by clamping: temperature to [0,1], max_tokens to [1,2048], top_p to
[0,1], top_k floored at 1. The function is total: it normalizes and never
raises. -/
def validateParameters (temperature : Option ℚ) (maxTokens : Option ℤ)
    (topP : Option ℚ) (topK : Option ℤ) : ValidatedParams :=
  { temperature := pyMaxQ 0 (pyMinQ 1 (temperature.getD (mkRat 7 10)))
    maxTokens := pyMaxI 1 (pyMinI 2048 (maxTokens.getD 512))
    topP := pyMaxQ 0 (pyMinQ 1 (topP.getD (mkRat 9 10)))
    topK := pyMaxI 1 (topK.getD 50) }

/-- One chunk of the upstream OpenAI event stream as seen by
OpenAIAPIBackend.generate_stream: whether chunk.choices is non-empty, the
optional choices[0].delta.content, and the optional choices[0].finish_reason. -/
structure RawChunk where
  hasChoices : Bool
  deltaContent : Option String
  finishReason : Option String
deriving DecidableEq

/-- Python truthiness of an Optional[str]: None and the empty string are
falsy. -/
def strTruthy : Option String → Bool
  | some s => s ≠ ""
  | none => false

/-- The final chunk emitted after the upstream loop: empty content,
is_final = True, carrying the current chunk_id. -/
def finalChunk (sid mid : String) (cid : Nat) : StreamChunk :=
  ⟨"", sid, mid, cid, true⟩

/-- The loop body of OpenAIAPIBackend.generate_stream over the upstream
chunks: emit a content chunk (and advance chunk_id) for each upstream chunk
with a truthy delta content; break when a truthy finish_reason is seen and
emit the final chunk; if the upstream iterator raises after the listed
chunks (errAfter), the exception escapes as a GenerationError and no final
chunk is emitted (the Bool result records whether the call errored). -/
def openaiGo (sid mid : String) (cid : Nat) :
    List RawChunk → Bool → List StreamChunk × Bool
  | [], errAfter =>
      if errAfter then ([], true) else ([finalChunk sid mid cid], false)
  | c :: rest, errAfter =>
      if c.hasChoices && strTruthy c.deltaContent then
        let body : StreamChunk := ⟨c.deltaContent.getD "", sid, mid, cid, false⟩
        if c.hasChoices && strTruthy c.finishReason then
          ([body, finalChunk sid mid (cid + 1)], false)
        else
          let r := openaiGo sid mid (cid + 1) rest errAfter
          (body :: r.1, r.2)
      else
        if c.hasChoices && strTruthy c.finishReason then
          ([finalChunk sid mid cid], false)
        else openaiGo sid mid cid rest errAfter

/-- OpenAIAPIBackend.generate_stream for a loaded backend, starting from
chunk_id = 0, over the given upstream chunks; errAfter means the upstream
stream raises after yielding the listed chunks. -/
def openaiGenerateStream (sid mid : String) (raw : List RawChunk)
    (errAfter : Bool) : List StreamChunk × Bool :=
  openaiGo sid mid 0 raw errAfter

/-- The fields of schemas.ChatRequest the orchestrator reads (temperature
and max_tokens are forwarded to the backend, which is abstracted below). -/
structure ChatRequest where
  message : String
  session_id : String
  system_prompt : Option String
deriving DecidableEq

/-- ChatManager state: is_initialized, active_streams,
max_concurrent_streams, and the session manager it drives. -/
structure ChatState where
  initializedFlag : Bool
  active : Nat
  maxStreams : Nat
  session : SessionState

/-- ASCII whitespace as recognized by Python str.strip() (space, tab,
newline, carriage return, vertical tab, form feed); the model restricts
content to ASCII text. -/
def isPyWhitespace (c : Char) : Bool :=
  c.toNat == 32 || c.toNat == 9 || c.toNat == 10 ||
    c.toNat == 13 || c.toNat == 11 || c.toNat == 12

/-- Python str.strip(): removes leading and trailing whitespace. -/
def pyStrip (s : String) : String :=
  String.mk (((s.data.dropWhile isPyWhitespace).reverse.dropWhile
    isPyWhitespace).reverse)

/-- The user ChatMessage built by ChatManager before generation. -/
def userMessage (req : ChatRequest) (now : Nat) : ChatMessage :=
  ⟨"user", req.message, now, [("session_id", some req.session_id)]⟩

/-- The session-store prefix shared by both ChatManager paths: ensure the
session exists, then append the user message. -/
def sessionAfterUser (ss : SessionState) (req : ChatRequest) (now : Nat) :
    SessionState :=
  (addMessage (createSession ss req.session_id now).1 req.session_id
    (userMessage req now) now).1

/-- Python `a or b` on a string expression with string fallback: an empty or
missing first operand falls through to the second. -/
def pyOrStr (a : Option String) (b : String) : String :=
  match a with
  | some s => if s = "" then b else s
  | none => b

/-- ChatManager._prepare_messages_for_model: optional system prompt (custom
prompt, falling back to settings.get_system_prompt(), skipped when empty)
prepended to the stored history. -/
def prepareMessagesForModel (st : SessionState) (sid : String)
    (customSystemPrompt : Option String) (defaultPrompt : String)
    (now : Nat) : List ChatMessage :=
  let history := getSessionMessages st sid none
  let sp := pyOrStr customSystemPrompt defaultPrompt
  if sp = "" then history
  else ⟨"system", sp, now, []⟩ :: history

/-- Result of the backend generate_response call as seen by the
orchestrator: the response text and message id on success, none when a
GenerationError (or any backend exception) was raised. -/
structure GenSuccess where
  message : String
  message_id : String
deriving DecidableEq

/-- Outcome of a non-streaming process_chat_request call: the RuntimeError
for an uninitialized manager, ModelNotLoadedError, a propagated backend
error, or success. -/
inductive ChatOutcome where
  | ok (resp : GenSuccess)
  | errNotInitialized
  | errNotLoaded
  | errGeneration
deriving DecidableEq

/-- The assistant ChatMessage appended by the non-streaming path. -/
def assistantMessage (sid content : String) (mid : Option String)
    (now : Nat) : ChatMessage :=
  ⟨"assistant", content, now, [("session_id", some sid), ("message_id", mid)]⟩

/-- ChatManager.process_chat_request: check initialization and model
readiness, ensure the session, append the user message, call the backend
(abstracted by genResult), and append the assistant message on success.
A backend error propagates after the user message was persisted. -/
def processChatRequest (st : ChatState) (req : ChatRequest) (ready : Bool)
    (genResult : Option GenSuccess) (now : Nat) : ChatOutcome × ChatState :=
  if st.initializedFlag then
    if ready then
      let s2 := sessionAfterUser st.session req now
      match genResult with
      | none => (.errGeneration, { st with session := s2 })
      | some g =>
          let s3 := (addMessage s2 req.session_id
            (assistantMessage req.session_id g.message (some g.message_id) now) now).1
          (.ok g, { st with session := s3 })
    else (.errNotLoaded, st)
  else (.errNotInitialized, st)

/-- The backend generate_stream run as consumed by the streaming
orchestrator loop: the chunks the generator yields, and whether it raises
(a GenerationError) after yielding them. -/
structure StreamRun where
  chunks : List StreamChunk
  errored : Bool
deriving DecidableEq

/-- Outcome of one process_streaming_chat_request call: the RuntimeError
for an uninitialized manager, the capacity RuntimeError raised at the
concurrent-stream cap, ModelNotLoadedError, a propagated mid-stream
backend error, early generator close by the consumer (cancellation), or
normal completion. -/
inductive StreamOutcome where
  | ok
  | errNotInitialized
  | errCapacity
  | errNotLoaded
  | errGeneration
  | closedEarly
deriving DecidableEq

/-- What one process_streaming_chat_request call produced: the chunks the
consumer observed, the outcome, and the final orchestrator state. -/
structure StreamExec where
  emitted : List StreamChunk
  outcome : StreamOutcome
  state : ChatState

/-- full_response: the fold accumulating every emitted chunk content. -/
def fullResponse (chunks : List StreamChunk) : String :=
  chunks.foldl (fun acc c => acc ++ c.content) ""

/-- ChatManager.process_streaming_chat_request. Inputs beyond the state and
request: model_manager.is_ready() (ready); the backend generator behaviour
(run); how many chunks the consumer reads before closing the generator
(consumed = some k models cancellation after k chunks, none means the
consumer drains the stream); the timestamp. The capacity check and
increment precede the try block, so a capacity failure leaves the counter
untouched; the decrement sits in a finally and runs on every exit path of
the started stream. The accumulated response is persisted as an assistant
message only after a normally-terminated loop and only when non-empty after
strip; its message_id metadata comes from the first chunk seen. -/
def processStreamingChatRequest (st : ChatState) (req : ChatRequest)
    (ready : Bool) (run : StreamRun) (consumed : Option Nat)
    (now : Nat) : StreamExec :=
  if st.initializedFlag then
    if st.maxStreams ≤ st.active then ⟨[], .errCapacity, st⟩
    else
      let stIn : ChatState := { st with active := st.active + 1 }
      if ready then
        let s2 := sessionAfterUser stIn.session req now
        let finishLoop : StreamExec :=
          if run.errored then
            ⟨run.chunks, .errGeneration,
              { stIn with session := s2, active := stIn.active - 1 }⟩
          else
            let stripped := pyStrip (fullResponse run.chunks)
            let s3 :=
              if stripped ≠ "" then
                (addMessage s2 req.session_id
                  (assistantMessage req.session_id stripped
                    ((run.chunks.head?).map (fun c => c.message_id)) now) now).1
              else s2
            ⟨run.chunks, .ok,
              { stIn with session := s3, active := stIn.active - 1 }⟩
        match consumed with
        | some k =>
            if k ≤ run.chunks.length then
              ⟨run.chunks.take k, .closedEarly,
                { stIn with session := s2, active := stIn.active - 1 }⟩
            else finishLoop
        | none => finishLoop
      else ⟨[], .errNotLoaded, { stIn with active := stIn.active - 1 }⟩
  else ⟨[], .errNotInitialized, st⟩

/-- Traces of the active-stream counter: a stream start is admitted only
below the cap (the guarded increment of process_streaming_chat_request) and
a finish decrements a positive counter (the finally-block decrement). -/
inductive StreamTrace (cap : Nat) : Nat → Nat → Prop where
  | refl (a : Nat) : StreamTrace cap a a
  | start {a b : Nat} : StreamTrace cap a b → b < cap → StreamTrace cap a (b + 1)
  | finish {a b : Nat} : StreamTrace cap a b → 0 < b → StreamTrace cap a (b - 1)

/-! ## Helper lemmas -/

theorem lookup_storeSession_self (ss : Sessions) (s : ConversationHistory) :
    storeSession ss s s.session_id = some s := by
  simp [storeSession]

theorem lookup_storeSession_of_ne (ss : Sessions) (s : ConversationHistory)
    (k : String) (h : k ≠ s.session_id) : storeSession ss s k = ss k := by
  simp [storeSession, h]

theorem pyMaxQ_le_left (a b : ℚ) : a ≤ pyMaxQ a b := by
  unfold pyMaxQ; split_ifs with h <;> linarith

theorem clampQ_mem (lo hi x : ℚ) (h : lo ≤ hi) :
    lo ≤ pyMaxQ lo (pyMinQ hi x) ∧ pyMaxQ lo (pyMinQ hi x) ≤ hi := by
  unfold pyMaxQ pyMinQ; split_ifs <;> constructor <;> linarith

theorem clampQ_of_lt (lo hi x : ℚ) (hlh : lo ≤ hi) (h : x < lo) :
    pyMaxQ lo (pyMinQ hi x) = lo := by
  unfold pyMaxQ pyMinQ; split_ifs <;> linarith

theorem clampQ_of_gt (lo hi x : ℚ) (hlh : lo ≤ hi) (h : hi < x) :
    pyMaxQ lo (pyMinQ hi x) = hi := by
  unfold pyMaxQ pyMinQ; split_ifs <;> linarith

theorem clampQ_of_between (lo hi x : ℚ) (h1 : lo ≤ x) (h2 : x ≤ hi) :
    pyMaxQ lo (pyMinQ hi x) = x := by
  unfold pyMaxQ pyMinQ; split_ifs <;> linarith

theorem clampI_mem (lo hi x : ℤ) (h : lo ≤ hi) :
    lo ≤ pyMaxI lo (pyMinI hi x) ∧ pyMaxI lo (pyMinI hi x) ≤ hi := by
  unfold pyMaxI pyMinI; split_ifs <;> omega

theorem clampI_of_lt (lo hi x : ℤ) (hlh : lo ≤ hi) (h : x < lo) :
    pyMaxI lo (pyMinI hi x) = lo := by
  unfold pyMaxI pyMinI; split_ifs <;> omega

theorem clampI_of_gt (lo hi x : ℤ) (hlh : lo ≤ hi) (h : hi < x) :
    pyMaxI lo (pyMinI hi x) = hi := by
  unfold pyMaxI pyMinI; split_ifs <;> omega

theorem clampI_of_between (lo hi x : ℤ) (h1 : lo ≤ x) (h2 : x ≤ hi) :
    pyMaxI lo (pyMinI hi x) = x := by
  unfold pyMaxI pyMinI; split_ifs <;> omega

theorem pyMaxI_floor (a x : ℤ) :
    a ≤ pyMaxI a x ∧ (x < a → pyMaxI a x = a) ∧ (a ≤ x → pyMaxI a x = x) := by
  unfold pyMaxI; split_ifs <;> refine ⟨by omega, fun h2 => by omega, fun h2 => by omega⟩

/-! ## C5: delete_session return value -/

/-- Claim C5 counterexample: on the in-memory store, deleting a session id
that does not exist still returns true, refuting the claim that
delete(session_id) returns false when the session did not exist. -/
theorem claim5_counterexample :
    getSession ⟨fun _ => none, 100⟩ "s1" = none ∧
    (deleteSession ⟨fun _ => none, 100⟩ "s1").2 = true :=
  ⟨rfl, rfl⟩

/-- Claim C5 (amended): delete_session removes the session and returns true
regardless of whether the session existed (false is returned only on a
storage-backend exception, which the in-memory path cannot raise). -/
theorem claim5_delete_session (st : SessionState) (sid : String) :
    (deleteSession st sid).2 = true ∧
    getSession (deleteSession st sid).1 sid = none := by
  refine ⟨rfl, ?_⟩
  simp [deleteSession, getSession, popSession]

/-! ## C9: parameter validation -/

/-- Claim C9: validate_parameters clamps temperature into [0,1], max_tokens
into [1,2048], top_p into [0,1], and floors top_k at 1; out-of-range values
are normalized to the nearest bound and in-range values pass through, and
the function is total (values are normalized, never rejected). -/
theorem claim9_validate_parameters (t : ℚ) (m : ℤ) (p : ℚ) (k : ℤ) :
    (0 ≤ (validateParameters (some t) (some m) (some p) (some k)).temperature ∧
      (validateParameters (some t) (some m) (some p) (some k)).temperature ≤ 1) ∧
    (1 ≤ (validateParameters (some t) (some m) (some p) (some k)).maxTokens ∧
      (validateParameters (some t) (some m) (some p) (some k)).maxTokens ≤ 2048) ∧
    (0 ≤ (validateParameters (some t) (some m) (some p) (some k)).topP ∧
      (validateParameters (some t) (some m) (some p) (some k)).topP ≤ 1) ∧
    1 ≤ (validateParameters (some t) (some m) (some p) (some k)).topK ∧
    (t < 0 → (validateParameters (some t) (some m) (some p) (some k)).temperature = 0) ∧
    (1 < t → (validateParameters (some t) (some m) (some p) (some k)).temperature = 1) ∧
    (0 ≤ t → t ≤ 1 → (validateParameters (some t) (some m) (some p) (some k)).temperature = t) ∧
    (m < 1 → (validateParameters (some t) (some m) (some p) (some k)).maxTokens = 1) ∧
    (2048 < m → (validateParameters (some t) (some m) (some p) (some k)).maxTokens = 2048) ∧
    (1 ≤ m → m ≤ 2048 → (validateParameters (some t) (some m) (some p) (some k)).maxTokens = m) ∧
    (p < 0 → (validateParameters (some t) (some m) (some p) (some k)).topP = 0) ∧
    (1 < p → (validateParameters (some t) (some m) (some p) (some k)).topP = 1) ∧
    (0 ≤ p → p ≤ 1 → (validateParameters (some t) (some m) (some p) (some k)).topP = p) ∧
    (k < 1 → (validateParameters (some t) (some m) (some p) (some k)).topK = 1) ∧
    (1 ≤ k → (validateParameters (some t) (some m) (some p) (some k)).topK = k) := by
  simp only [validateParameters, Option.getD_some]
  have h01 : (0 : ℚ) ≤ 1 := by norm_num
  have h12 : (1 : ℤ) ≤ 2048 := by norm_num
  refine ⟨clampQ_mem 0 1 t h01, clampI_mem 1 2048 m h12, clampQ_mem 0 1 p h01,
    (pyMaxI_floor 1 k).1,
    fun h => clampQ_of_lt 0 1 t h01 h,
    fun h => clampQ_of_gt 0 1 t h01 h,
    fun h1 h2 => clampQ_of_between 0 1 t h1 h2,
    fun h => clampI_of_lt 1 2048 m h12 h,
    fun h => clampI_of_gt 1 2048 m h12 h,
    fun h1 h2 => clampI_of_between 1 2048 m h1 h2,
    fun h => clampQ_of_lt 0 1 p h01 h,
    fun h => clampQ_of_gt 0 1 p h01 h,
    fun h1 h2 => clampQ_of_between 0 1 p h1 h2,
    fun h => (pyMaxI_floor 1 k).2.1 h,
    fun h => (pyMaxI_floor 1 k).2.2 h⟩

/-- Witness for C9 at out-of-range inputs: temperature 3/2 is clamped to 1,
max_tokens 5000 to 2048, top_p -1 to 0, top_k 0 to 1. -/
theorem claim9_validate_parameters_witness :
    (validateParameters (some (mkRat 3 2)) (some 5000) (some (mkRat (-1) 1))
      (some 0)).temperature = 1 ∧
    (validateParameters (some (mkRat 3 2)) (some 5000) (some (mkRat (-1) 1))
      (some 0)).maxTokens = 2048 ∧
    (validateParameters (some (mkRat 3 2)) (some 5000) (some (mkRat (-1) 1))
      (some 0)).topP = 0 ∧
    (validateParameters (some (mkRat 3 2)) (some 5000) (some (mkRat (-1) 1))
      (some 0)).topK = 1 := by
  obtain ⟨-, -, -, -, -, hT, -, -, hM, -, hP, -, -, hK, -⟩ :=
    claim9_validate_parameters (mkRat 3 2) 5000 (mkRat (-1) 1) 0
  exact ⟨hT (by decide), hM (by decide), hP (by decide), hK (by decide)⟩

/-! ## C3: switch rollback -/

/-- Claim C3: from a ready manager whose active configuration still loads
successfully, a switch to a backend whose initialization fails returns
False and rolls back: afterwards the previous configuration is
re-initialized, the original backend type and model name are active and
loaded, and is_ready() is true — the manager never ends with zero usable
backends. -/
theorem claim3_switch_rollback (env : ModelEnv) (st : ManagerState)
    (newName : String) (newType : Option String)
    (hready : isReady st = true)
    (hval : env.validateOk = true)
    (hold : env.loads st.backendType st.modelName = true)
    (hnew : env.loads
      (match newType with
       | some t => pyLower t
       | none => st.backendType) newName = false) :
    switchModel env st newName newType =
      (⟨some ⟨st.backendType, st.modelName, true⟩,
        st.backendType, st.modelName, true⟩, false) ∧
    isReady (switchModel env st newName newType).1 = true := by
  have hmain : switchModel env st newName newType =
      (⟨some ⟨st.backendType, st.modelName, true⟩,
        st.backendType, st.modelName, true⟩, false) := by
    unfold switchModel initializeManager
    simp only [hval, if_true]
    cases newType with
    | none => simp only at hnew; simp [hnew, hold]
    | some t => simp only at hnew; simp [hnew, hold]
  refine ⟨hmain, ?_⟩
  rw [hmain]
  simp [isReady]

/-- Witness for C3: a manager running the openai/gpt backend, switched to an
anthropic backend that fails to load, ends ready on openai/gpt with the
switch call returning False. -/
theorem claim3_switch_rollback_witness :
    switchModel ⟨true, fun t n => t == "openai" && n == "gpt"⟩
        ⟨some ⟨"openai", "gpt", true⟩, "openai", "gpt", true⟩
        "claude" (some "Anthropic") =
      (⟨some ⟨"openai", "gpt", true⟩, "openai", "gpt", true⟩, false) ∧
    isReady (switchModel ⟨true, fun t n => t == "openai" && n == "gpt"⟩
        ⟨some ⟨"openai", "gpt", true⟩, "openai", "gpt", true⟩
        "claude" (some "Anthropic")).1 = true :=
  claim3_switch_rollback ⟨true, fun t n => t == "openai" && n == "gpt"⟩
    ⟨some ⟨"openai", "gpt", true⟩, "openai", "gpt", true⟩
    "claude" (some "Anthropic") (by decide) rfl (by decide) (by decide)

/-! ## C1: eviction policy -/

/-- Claim C1 counterexample: with cap 2 and a stored history consisting of a
system message followed by a user message, appending one more message evicts
the system message — add_message trims purely by age, with no special
treatment for a designated system message, refuting the never-evicted part
of the claim. -/
theorem claim1_counterexample :
    (⟨"system", "sys", 0, []⟩ : ChatMessage) ∈
      getSessionMessages
        ⟨fun k => if k = "s" then
            some ⟨"s", [⟨"system", "sys", 0, []⟩, ⟨"user", "u1", 1, []⟩], 0, 1, 2⟩
          else none, 2⟩ "s" none ∧
    (⟨"system", "sys", 0, []⟩ : ChatMessage) ∉
      getSessionMessages
        ((addMessage
          ⟨fun k => if k = "s" then
              some ⟨"s", [⟨"system", "sys", 0, []⟩, ⟨"user", "u1", 1, []⟩], 0, 1, 2⟩
            else none, 2⟩
          "s" ⟨"user", "u2", 2, []⟩ 2).1) "s" none := by
  decide

/-- Claim C1 (amended): appending to a session whose stored history has
reached the configured cap keeps exactly the most recent cap messages of
the appended sequence in their original relative order (so the resulting
length is exactly the cap); no message — the system role included — is
exempt from this age-based eviction. -/
theorem claim1_eviction (st : SessionState) (sid : String)
    (sess : ConversationHistory) (m : ChatMessage) (now : Nat)
    (hs : st.sessions sid = some sess) (hid : sess.session_id = sid)
    (hpos : 0 < st.maxMessages) (hcap : st.maxMessages ≤ sess.messages.length) :
    getSessionMessages (addMessage st sid m now).1 sid none
      = (sess.messages ++ [m]).drop (sess.messages.length + 1 - st.maxMessages) ∧
    (getSessionMessages (addMessage st sid m now).1 sid none).length
      = st.maxMessages := by
  subst hid
  have hcond : 0 < st.maxMessages ∧ st.maxMessages ≤ sess.messages.length :=
    ⟨hpos, hcap⟩
  have hmsgs : getSessionMessages (addMessage st sess.session_id m now).1
        sess.session_id none
      = sess.messages.drop (sess.messages.length - st.maxMessages + 1) ++ [m] := by
    simp [addMessage, hs, addToSession, evictForAppend, hcond,
      getSessionMessages, storeSession]
  constructor
  · have hle : sess.messages.length + 1 - st.maxMessages ≤ sess.messages.length := by
      omega
    have hidx : sess.messages.length - st.maxMessages + 1
        = sess.messages.length + 1 - st.maxMessages := by omega
    rw [hmsgs, hidx, List.drop_append_of_le_length hle]
  · rw [hmsgs]
    simp only [List.length_append, List.length_drop, List.length_cons,
      List.length_nil]
    omega

/-- Witness for C1 amended: cap 2, history [sys, u1], appending u2 leaves
exactly the two most recent messages [u1, u2]. -/
theorem claim1_eviction_witness :
    getSessionMessages
        ((addMessage
          ⟨fun k => if k = "s" then
              some ⟨"s", [⟨"system", "sys", 0, []⟩, ⟨"user", "u1", 1, []⟩], 0, 1, 2⟩
            else none, 2⟩
          "s" ⟨"user", "u2", 2, []⟩ 2).1) "s" none
      = (([⟨"system", "sys", 0, []⟩, ⟨"user", "u1", 1, []⟩] : List ChatMessage) ++
          ([⟨"user", "u2", 2, []⟩] : List ChatMessage)).drop 1 ∧
    (getSessionMessages
        ((addMessage
          ⟨fun k => if k = "s" then
              some ⟨"s", [⟨"system", "sys", 0, []⟩, ⟨"user", "u1", 1, []⟩], 0, 1, 2⟩
            else none, 2⟩
          "s" ⟨"user", "u2", 2, []⟩ 2).1) "s" none).length = 2 :=
  claim1_eviction
    ⟨fun k => if k = "s" then
        some ⟨"s", [⟨"system", "sys", 0, []⟩, ⟨"user", "u1", 1, []⟩], 0, 1, 2⟩
      else none, 2⟩
    "s" ⟨"s", [⟨"system", "sys", 0, []⟩, ⟨"user", "u1", 1, []⟩], 0, 1, 2⟩
    ⟨"user", "u2", 2, []⟩ 2 rfl rfl (by decide) (by decide)

/-! ## C7: append order and message_count invariant -/
theorem isSuffix_append_both {α : Type} {xs ys : List α} (zs : List α)
    (h : List.IsSuffix xs ys) : List.IsSuffix (xs ++ zs) (ys ++ zs) := by
  obtain ⟨t, ht⟩ := h
  exact ⟨t, by rw [← List.append_assoc, ht]⟩

theorem evictForAppend_suffix (mx : Nat) (msgs : List ChatMessage) :
    List.IsSuffix (evictForAppend mx msgs) msgs := by
  unfold evictForAppend
  split_ifs
  · exact List.drop_suffix _ _
  · exact List.suffix_refl _

theorem evictForAppend_of_room (mx : Nat) (msgs : List ChatMessage)
    (h : msgs.length < mx ∨ mx = 0) : evictForAppend mx msgs = msgs := by
  unfold evictForAppend
  split_ifs with hc
  · exfalso; omega
  · rfl

theorem addMessage_found (st : SessionState) (sess : ConversationHistory)
    (m : ChatMessage) (now : Nat)
    (hs : st.sessions sess.session_id = some sess) :
    addMessage st sess.session_id m now = addToSession st sess m now := by
  simp [addMessage, hs]

theorem addToSession_result (st : SessionState) (sess : ConversationHistory)
    (m : ChatMessage) (now : Nat) :
    (addToSession st sess m now).1 =
      { st with
          sessions :=
            storeSession st.sessions (appendedSession st.maxMessages sess m now) }
      := rfl

theorem appendedSession_messages (mx : Nat) (sess : ConversationHistory)
    (m : ChatMessage) (now : Nat) :
    (appendedSession mx sess m now).messages
      = evictForAppend mx sess.messages ++ [m] := rfl

theorem msgCountOk_store (st : SessionState) (s : ConversationHistory)
    (h : MsgCountOk st) (hsv : s.message_count = s.messages.length) :
    MsgCountOk { st with sessions := storeSession st.sessions s } := by
  intro k s2 hk
  have hk2 : storeSession st.sessions s k = some s2 := hk
  by_cases hks : k = s.session_id
  · subst hks
    rw [lookup_storeSession_self] at hk2
    cases hk2
    exact hsv
  · rw [lookup_storeSession_of_ne _ _ _ hks] at hk2
    exact h k s2 hk2

theorem msgCountOk_createSession (st : SessionState) (sid : String) (now : Nat)
    (h : MsgCountOk st) : MsgCountOk (createSession st sid now).1 := by
  unfold createSession
  rcases hlook : st.sessions sid with _ | sess
  · exact msgCountOk_store st ⟨sid, [], now, now, 0⟩ h rfl
  · exact h

theorem msgCountOk_addMessage (st : SessionState) (sid : String)
    (m : ChatMessage) (now : Nat) (h : MsgCountOk st) :
    MsgCountOk (addMessage st sid m now).1 := by
  unfold addMessage
  rcases hlook : st.sessions sid with _ | sess
  · simp only [hlook]
    have hc := msgCountOk_createSession st sid now h
    rcases hlook2 : (createSession st sid now).1.sessions sid with _ | sess0
    · simp only [hlook2]
      exact hc
    · simp only [hlook2]
      rw [addToSession_result]
      exact msgCountOk_store _ _ hc rfl
  · simp only [hlook]
    rw [addToSession_result]
    exact msgCountOk_store _ _ h rfl

theorem msgCountOk_deleteSession (st : SessionState) (sid : String)
    (h : MsgCountOk st) : MsgCountOk (deleteSession st sid).1 := by
  intro k s2 hk
  have hk2 : popSession st.sessions sid k = some s2 := hk
  unfold popSession at hk2
  by_cases hks : k = sid
  · simp [hks] at hk2
  · simp only [if_neg hks] at hk2
    exact h k s2 hk2

theorem appendAll_loop (sid : String) (now : Nat) (msgs : List ChatMessage) :
    ∀ (st : SessionState) (sess : ConversationHistory),
      st.sessions sid = some sess → sess.session_id = sid →
      sess.message_count = sess.messages.length →
      ∃ sess2 : ConversationHistory,
        (appendAll st sid msgs now).sessions sid = some sess2 ∧
        sess2.session_id = sid ∧
        sess2.message_count = sess2.messages.length ∧
        List.IsSuffix sess2.messages (sess.messages ++ msgs) ∧
        (appendAll st sid msgs now).maxMessages = st.maxMessages ∧
        (sess.messages.length + msgs.length ≤ st.maxMessages ∨ st.maxMessages = 0 →
          sess2.messages = sess.messages ++ msgs) := by
  induction msgs with
  | nil =>
      intro st sess hs hid hc
      refine ⟨sess, ?_, hid, hc, ?_, rfl, ?_⟩
      · simpa [appendAll] using hs
      · simp
      · intro _
        simp
  | cons m rest ih =>
      intro st sess hs hid hc
      have hstep : appendAll st sid (m :: rest) now
          = appendAll (addMessage st sid m now).1 sid rest now := by
        simp [appendAll]
      have hfound : addMessage st sid m now = addToSession st sess m now := by
        rw [← hid] at hs ⊢
        exact addMessage_found st sess m now hs
      have hst1 : (addMessage st sid m now).1
          = { st with
                sessions :=
                  storeSession st.sessions
                    (appendedSession st.maxMessages sess m now) } := by
        rw [hfound, addToSession_result]
      have hid1 : (appendedSession st.maxMessages sess m now).session_id = sid := hid
      have hs1 : ((addMessage st sid m now).1).sessions sid
          = some (appendedSession st.maxMessages sess m now) := by
        rw [hst1]
        show storeSession st.sessions (appendedSession st.maxMessages sess m now) sid
          = some (appendedSession st.maxMessages sess m now)
        rw [← hid1]
        exact lookup_storeSession_self _ _
      have hmax1 : ((addMessage st sid m now).1).maxMessages = st.maxMessages := by
        rw [hst1]
      obtain ⟨sess2, h1, h2, h3, h4, h5, h6⟩ :=
        ih (addMessage st sid m now).1 (appendedSession st.maxMessages sess m now)
          hs1 hid1 rfl
      refine ⟨sess2, ?_, h2, h3, ?_, ?_, ?_⟩
      · rw [hstep]
        exact h1
      · have h7 : List.IsSuffix (evictForAppend st.maxMessages sess.messages ++ [m])
            (sess.messages ++ [m]) :=
          isSuffix_append_both [m] (evictForAppend_suffix st.maxMessages sess.messages)
        have h8 := isSuffix_append_both rest h7
        have h9 : List.IsSuffix
            ((appendedSession st.maxMessages sess m now).messages ++ rest)
            (sess.messages ++ (m :: rest)) := by
          rw [appendedSession_messages]
          simpa [List.append_assoc] using h8
        exact h4.trans h9
      · rw [hstep, h5, hmax1]
      · intro hroom
        have hevict : evictForAppend st.maxMessages sess.messages = sess.messages := by
          apply evictForAppend_of_room
          rcases hroom with hle | hz
          · left
            simp at hle
            omega
          · right
            exact hz
        have hlen : (appendedSession st.maxMessages sess m now).messages.length
            = sess.messages.length + 1 := by
          rw [appendedSession_messages, hevict]
          simp
        have h6a : sess2.messages
            = (appendedSession st.maxMessages sess m now).messages ++ rest := by
          apply h6
          rw [hmax1, hlen]
          rcases hroom with hle | hz
          · left
            simp at hle
            omega
          · right
            exact hz
        rw [h6a, appendedSession_messages, hevict]
        simp [List.append_assoc]

/-- Claim C7: creation, append, and delete all preserve the invariant
message_count == length of the stored message sequence, and for any
sequence of add_message calls into a fresh session the stored messages are
read back in call order: always a suffix of the appended sequence
(eviction removes only the oldest prefix, never reordering), and exactly
the appended sequence when it fits within the cap (or the cap is
disabled). -/
theorem claim7_append_order_and_count :
    (∀ st sid now, MsgCountOk st → MsgCountOk (createSession st sid now).1) ∧
    (∀ st sid m now, MsgCountOk st → MsgCountOk (addMessage st sid m now).1) ∧
    (∀ st sid, MsgCountOk st → MsgCountOk (deleteSession st sid).1) ∧
    (∀ (st : SessionState) (sid : String) (msgs : List ChatMessage) (now : Nat),
      st.sessions sid = none →
      List.IsSuffix (getSessionMessages (appendAll st sid msgs now) sid none) msgs ∧
      (msgs.length ≤ st.maxMessages ∨ st.maxMessages = 0 →
        getSessionMessages (appendAll st sid msgs now) sid none = msgs)) := by
  refine ⟨msgCountOk_createSession, msgCountOk_addMessage,
    msgCountOk_deleteSession, ?_⟩
  intro st sid msgs now hs
  cases msgs with
  | nil =>
      constructor
      · simp [appendAll, getSessionMessages, hs]
      · intro _
        simp [appendAll, getSessionMessages, hs]
  | cons m rest =>
      have hstep : appendAll st sid (m :: rest) now
          = appendAll (addMessage st sid m now).1 sid rest now := by
        simp [appendAll]
      have hcreate : (createSession st sid now).1
          = { st with
                sessions := storeSession st.sessions ⟨sid, [], now, now, 0⟩ } := by
        simp [createSession, hs]
      have hlook0 : ((createSession st sid now).1).sessions sid
          = some ⟨sid, [], now, now, 0⟩ := by
        rw [hcreate]
        show storeSession st.sessions ⟨sid, [], now, now, 0⟩ sid
          = some ⟨sid, [], now, now, 0⟩
        exact lookup_storeSession_self _ _
      have hadd : addMessage st sid m now
          = addToSession (createSession st sid now).1 ⟨sid, [], now, now, 0⟩ m now := by
        unfold addMessage
        simp only [hs, hlook0]
      have hmax0 : ((createSession st sid now).1).maxMessages = st.maxMessages := by
        rw [hcreate]
      have hs1 : ((addMessage st sid m now).1).sessions sid
          = some (appendedSession st.maxMessages ⟨sid, [], now, now, 0⟩ m now) := by
        rw [hadd, addToSession_result, hmax0]
        show storeSession ((createSession st sid now).1).sessions
            (appendedSession st.maxMessages ⟨sid, [], now, now, 0⟩ m now) sid
          = some (appendedSession st.maxMessages ⟨sid, [], now, now, 0⟩ m now)
        have hid1 : (appendedSession st.maxMessages ⟨sid, [], now, now, 0⟩ m now).session_id
            = sid := rfl
        rw [← hid1]
        exact lookup_storeSession_self _ _
      have hmax1 : ((addMessage st sid m now).1).maxMessages = st.maxMessages := by
        rw [hadd, addToSession_result, hmax0]
      have hev0 : evictForAppend st.maxMessages ([] : List ChatMessage) = [] := by
        apply evictForAppend_of_room
        rcases Nat.eq_zero_or_pos st.maxMessages with hz | hp
        · right
          exact hz
        · left
          simpa using hp
      have hmsgs1 : (appendedSession st.maxMessages ⟨sid, [], now, now, 0⟩ m now).messages
          = [m] := by
        rw [appendedSession_messages]
        simp [hev0]
      obtain ⟨sess2, h1, h2, h3, h4, h5, h6⟩ :=
        appendAll_loop sid now rest (addMessage st sid m now).1
          (appendedSession st.maxMessages ⟨sid, [], now, now, 0⟩ m now) hs1 rfl rfl
      have hread : getSessionMessages (appendAll st sid (m :: rest) now) sid none
          = sess2.messages := by
        rw [hstep]
        unfold getSessionMessages
        rw [h1]
      constructor
      · rw [hread]
        have := h4
        rw [hmsgs1] at this
        simpa using this
      · intro hroom
        rw [hread]
        have h6a : sess2.messages
            = (appendedSession st.maxMessages ⟨sid, [], now, now, 0⟩ m now).messages
              ++ rest := by
          apply h6
          rw [hmax1, hmsgs1]
          rcases hroom with hle | hz
          · left
            simp at hle ⊢
            omega
          · right
            exact hz
        rw [h6a, hmsgs1]
        simp

/-- Witness for C7: starting from an empty store with cap 10, a single
add_message preserves the count invariant, and appending two messages to a
fresh session reads back exactly those two messages in call order. -/
theorem claim7_append_order_and_count_witness :
    MsgCountOk (addMessage ⟨fun _ => none, 10⟩ "s" ⟨"user", "a", 0, []⟩ 0).1 ∧
    getSessionMessages
        (appendAll ⟨fun _ => none, 10⟩ "s"
          ([⟨"user", "a", 0, []⟩, ⟨"user", "b", 1, []⟩] : List ChatMessage) 0)
        "s" none
      = ([⟨"user", "a", 0, []⟩, ⟨"user", "b", 1, []⟩] : List ChatMessage) :=
  ⟨claim7_append_order_and_count.2.1 ⟨fun _ => none, 10⟩ "s" ⟨"user", "a", 0, []⟩ 0
      (fun _ _ h => Option.noConfusion h),
   (claim7_append_order_and_count.2.2.2 ⟨fun _ => none, 10⟩ "s"
      ([⟨"user", "a", 0, []⟩, ⟨"user", "b", 1, []⟩] : List ChatMessage) 0 rfl).2
      (by decide)⟩
/-! ## C8: stream chunk numbering and termination -/

theorem openaiGo_complete (sid mid : String) :
    ∀ (raw : List RawChunk) (cid : Nat) (errAfter : Bool)
      (out : List StreamChunk),
      openaiGo sid mid cid raw errAfter = (out, false) →
      out.map (fun c => c.chunk_id) = List.range' cid out.length ∧
      0 < out.length ∧
      out.map (fun c => c.is_final)
        = List.replicate (out.length - 1) false ++ [true] ∧
      (∀ c ∈ out, c.message_id = mid ∧ c.session_id = sid) ∧
      out.getLast? = some (finalChunk sid mid (cid + out.length - 1)) := by
  intro raw
  induction raw with
  | nil =>
      intro cid errAfter out h
      cases errAfter with
      | true => simp [openaiGo] at h
      | false =>
          simp only [openaiGo, Bool.false_eq_true, if_false, Prod.mk.injEq,
            and_true] at h
          subst h
          refine ⟨by simp [finalChunk, List.range'], by simp,
            by simp [finalChunk], ?_, by simp [finalChunk]⟩
          intro c hc
          simp only [List.mem_singleton] at hc
          simp [hc, finalChunk]
  | cons c rest ih =>
      intro cid errAfter out h
      rw [openaiGo] at h
      by_cases h1 : (c.hasChoices && strTruthy c.deltaContent) = true
      · rw [if_pos h1] at h
        by_cases h2 : (c.hasChoices && strTruthy c.finishReason) = true
        · rw [if_pos h2] at h
          simp only [Prod.mk.injEq, and_true] at h
          subst h
          refine ⟨by simp [finalChunk, List.range'], by simp,
            by simp [finalChunk], ?_, ?_⟩
          · intro x hx
            simp only [List.mem_cons, List.mem_singleton,
              List.not_mem_nil, or_false] at hx
            rcases hx with hx | hx <;> simp [hx, finalChunk]
          · rw [List.getLast?_cons_cons]
            simp [finalChunk]
        · rw [if_neg h2] at h
          rcases hgo : openaiGo sid mid (cid + 1) rest errAfter with ⟨o, e⟩
          rw [hgo] at h
          simp only [Prod.mk.injEq] at h
          obtain ⟨hout, herr⟩ := h
          subst herr
          obtain ⟨g1, g2, g3, g4, g5⟩ := ih (cid + 1) errAfter o hgo
          subst hout
          refine ⟨?_, by simp, ?_, ?_, ?_⟩
          · simp only [List.map_cons, g1, List.length_cons]
            rw [List.range'_succ]
          · simp only [List.map_cons, g3, List.length_cons]
            have hlen : o.length - 1 + 1 = o.length := by omega
            rw [show (o.length + 1 - 1) = o.length from by omega,
              ← hlen, List.replicate_succ]
            simp
          · intro x hx
            simp only [List.mem_cons] at hx
            rcases hx with hx | hx
            · simp [hx]
            · exact g4 x hx
          · rcases o with _ | ⟨y, ys⟩
            · simp at g2
            · rw [List.getLast?_cons_cons, g5]
              congr 2
              simp
              omega
      · rw [if_neg h1] at h
        by_cases h2 : (c.hasChoices && strTruthy c.finishReason) = true
        · rw [if_pos h2] at h
          simp only [Prod.mk.injEq, and_true] at h
          subst h
          refine ⟨by simp [finalChunk, List.range'], by simp,
            by simp [finalChunk], ?_, by simp [finalChunk]⟩
          intro x hx
          simp only [List.mem_singleton] at hx
          simp [hx, finalChunk]
        · rw [if_neg h2] at h
          exact ih cid errAfter out h

/-- Claim C8: a generate_stream call that completes without error emits
chunk ids 0, 1, 2, ... in generation order (the map of chunk_id over the
output is exactly range), all chunks carry the one message_id of the call,
and exactly one chunk has is_final = True: it is the last chunk, with empty
content (finalChunk carries content "") and chunk_id length-1. -/
theorem claim8_stream_chunk_ids (sid mid : String) (raw : List RawChunk)
    (errAfter : Bool) (out : List StreamChunk)
    (h : openaiGenerateStream sid mid raw errAfter = (out, false)) :
    out.map (fun c => c.chunk_id) = List.range out.length ∧
    (∀ c ∈ out, c.message_id = mid) ∧
    out.map (fun c => c.is_final)
      = List.replicate (out.length - 1) false ++ [true] ∧
    out.getLast? = some (finalChunk sid mid (out.length - 1)) := by
  obtain ⟨g1, g2, g3, g4, g5⟩ := openaiGo_complete sid mid raw 0 errAfter out h
  refine ⟨?_, fun c hc => (g4 c hc).1, g3, ?_⟩
  · rw [g1, List.range_eq_range']
  · rw [g5]
    congr 2
    omega

/-- Witness for C8: two upstream content deltas followed by a finish_reason
produce chunks with ids [0, 1, 2], finality [false, false, true], all on
the call message id, terminated by the empty final chunk. -/
theorem claim8_stream_chunk_ids_witness :
    ([⟨"He", "s1", "m1", 0, false⟩, ⟨"llo", "s1", "m1", 1, false⟩,
        ⟨"", "s1", "m1", 2, true⟩] : List StreamChunk).map (fun c => c.chunk_id)
      = List.range 3 ∧
    (∀ c ∈ ([⟨"He", "s1", "m1", 0, false⟩, ⟨"llo", "s1", "m1", 1, false⟩,
        ⟨"", "s1", "m1", 2, true⟩] : List StreamChunk), c.message_id = "m1") ∧
    ([⟨"He", "s1", "m1", 0, false⟩, ⟨"llo", "s1", "m1", 1, false⟩,
        ⟨"", "s1", "m1", 2, true⟩] : List StreamChunk).map (fun c => c.is_final)
      = List.replicate 2 false ++ [true] ∧
    ([⟨"He", "s1", "m1", 0, false⟩, ⟨"llo", "s1", "m1", 1, false⟩,
        ⟨"", "s1", "m1", 2, true⟩] : List StreamChunk).getLast?
      = some (finalChunk "s1" "m1" 2) :=
  claim8_stream_chunk_ids "s1" "m1"
    [⟨true, some "He", none⟩, ⟨true, some "llo", some "stop"⟩] false
    [⟨"He", "s1", "m1", 0, false⟩, ⟨"llo", "s1", "m1", 1, false⟩,
      ⟨"", "s1", "m1", 2, true⟩] (by decide)

/-! ## Orchestrator helpers -/

theorem openaiGo_error_no_final (sid mid : String) :
    ∀ (raw : List RawChunk) (cid : Nat) (out : List StreamChunk),
      openaiGo sid mid cid raw true = (out, true) →
      ∀ c ∈ out, c.is_final = false := by
  intro raw
  induction raw with
  | nil =>
      intro cid out h
      simp only [openaiGo, if_pos rfl] at h
      injection h with h1 h2
      subst h1
      intro x hx
      simp at hx
  | cons c rest ih =>
      intro cid out h
      rw [openaiGo] at h
      by_cases h1 : (c.hasChoices && strTruthy c.deltaContent) = true
      · rw [if_pos h1] at h
        by_cases h2 : (c.hasChoices && strTruthy c.finishReason) = true
        · rw [if_pos h2] at h
          simp at h
        · rw [if_neg h2] at h
          rcases hgo : openaiGo sid mid (cid + 1) rest true with ⟨o, e⟩
          rw [hgo] at h
          injection h with hout herr
          subst hout
          subst herr
          intro x hx
          simp only [List.mem_cons] at hx
          rcases hx with hx | hx
          · simp [hx]
          · exact ih (cid + 1) o hgo x hx
      · rw [if_neg h1] at h
        by_cases h2 : (c.hasChoices && strTruthy c.finishReason) = true
        · rw [if_pos h2] at h
          simp at h
        · rw [if_neg h2] at h
          exact ih cid out h

theorem getSessionMessages_store (ss : Sessions) (mx : Nat)
    (s : ConversationHistory) :
    getSessionMessages ⟨storeSession ss s, mx⟩ s.session_id none = s.messages := by
  unfold getSessionMessages
  rw [show (⟨storeSession ss s, mx⟩ : SessionState).sessions s.session_id
    = some s from lookup_storeSession_self ss s]

theorem sessionAfterUser_fresh (ss : SessionState) (req : ChatRequest)
    (now : Nat) (h : ss.sessions req.session_id = none) :
    getSessionMessages (sessionAfterUser ss req now) req.session_id none
      = [userMessage req now] := by
  have hcreate : (createSession ss req.session_id now).1
      = { ss with
            sessions := storeSession ss.sessions ⟨req.session_id, [], now, now, 0⟩ } := by
    simp [createSession, h]
  have hlook0 : ((createSession ss req.session_id now).1).sessions req.session_id
      = some ⟨req.session_id, [], now, now, 0⟩ := by
    rw [hcreate]
    exact lookup_storeSession_self ss.sessions ⟨req.session_id, [], now, now, 0⟩
  have hadd : sessionAfterUser ss req now
      = (addToSession (createSession ss req.session_id now).1
          ⟨req.session_id, [], now, now, 0⟩ (userMessage req now) now).1 := by
    unfold sessionAfterUser addMessage
    simp only [hlook0]
  have hev0 : evictForAppend ((createSession ss req.session_id now).1).maxMessages
      ([] : List ChatMessage) = [] := by
    apply evictForAppend_of_room
    rcases Nat.eq_zero_or_pos ((createSession ss req.session_id now).1).maxMessages
      with hz | hp
    · right
      exact hz
    · left
      simpa using hp
  rw [hadd, addToSession_result]
  have hmsgs : (appendedSession ((createSession ss req.session_id now).1).maxMessages
        ⟨req.session_id, [], now, now, 0⟩ (userMessage req now) now).messages
      = [userMessage req now] := by
    rw [appendedSession_messages, hev0]
    simp
  have hget := getSessionMessages_store
    ((createSession ss req.session_id now).1).sessions
    ((createSession ss req.session_id now).1).maxMessages
    (appendedSession ((createSession ss req.session_id now).1).maxMessages
      ⟨req.session_id, [], now, now, 0⟩ (userMessage req now) now)
  exact hget.trans hmsgs

/-! ## C2: streaming capacity -/

/-- Claim C2: (1) a process_stream call arriving while the active-stream
counter is at (or beyond) the cap fails immediately with the capacity
error, emitting nothing and leaving the state (counter included) untouched
— it never queues; (2) every call, on every exit path (not initialized,
capacity refusal, model not loaded, mid-stream error, consumer
cancellation, normal completion), returns with the active counter equal to
its value at entry, i.e. a started stream always releases its slot; (3) any
interleaving of guarded starts and finishes beginning from an idle counter
keeps at most cap streams active at every instant. -/
theorem claim2_stream_capacity :
    (∀ (st : ChatState) (req : ChatRequest) (ready : Bool) (run : StreamRun)
        (consumed : Option Nat) (now : Nat),
      st.initializedFlag = true → st.maxStreams ≤ st.active →
      processStreamingChatRequest st req ready run consumed now
        = ⟨[], .errCapacity, st⟩) ∧
    (∀ (st : ChatState) (req : ChatRequest) (ready : Bool) (run : StreamRun)
        (consumed : Option Nat) (now : Nat),
      (processStreamingChatRequest st req ready run consumed now).state.active
        = st.active) ∧
    (∀ (cap a : Nat), StreamTrace cap 0 a → a ≤ cap) := by
  refine ⟨?_, ?_, ?_⟩
  · intro st req ready run consumed now h1 h2
    simp [processStreamingChatRequest, h1, h2]
  · intro st req ready run consumed now
    rcases consumed with _ | k <;>
      by_cases hi : st.initializedFlag = true <;>
      by_cases hcp : st.maxStreams ≤ st.active <;>
      by_cases hr : ready = true <;>
      by_cases he : run.errored = true <;>
      simp [processStreamingChatRequest, hi, hcp, hr, he] <;>
      split_ifs <;>
      simp
  · intro cap a h
    induction h with
    | refl => exact Nat.zero_le _
    | start hb hlt ih => exact hlt
    | finish hb hpos ih => omega

/-- Witness for C2: a call at the cap (active = cap = 2) is refused with
the capacity error and an unchanged state; a call below the cap returns
with the counter back at its entry value; a start-finish-start trace from 0
under cap 3 stays at most 3. -/
theorem claim2_stream_capacity_witness :
    processStreamingChatRequest ⟨true, 2, 2, ⟨fun _ => none, 100⟩⟩
        ⟨"hi", "s", none⟩ true ⟨[], false⟩ none 0
      = ⟨[], .errCapacity, ⟨true, 2, 2, ⟨fun _ => none, 100⟩⟩⟩ ∧
    (processStreamingChatRequest ⟨true, 0, 2, ⟨fun _ => none, 100⟩⟩
        ⟨"hi", "s", none⟩ true ⟨[], false⟩ none 0).state.active = 0 ∧
    (2 : Nat) ≤ 3 :=
  ⟨claim2_stream_capacity.1 ⟨true, 2, 2, ⟨fun _ => none, 100⟩⟩
      ⟨"hi", "s", none⟩ true ⟨[], false⟩ none 0 rfl (by decide),
   claim2_stream_capacity.2.1 ⟨true, 0, 2, ⟨fun _ => none, 100⟩⟩
      ⟨"hi", "s", none⟩ true ⟨[], false⟩ none 0,
   claim2_stream_capacity.2.2 3 2
      (StreamTrace.start (StreamTrace.start (StreamTrace.refl 0)
        (by decide)) (by decide))⟩

/-! ## C4: mid-stream backend error -/

/-- Claim C4: when the backend generator raises mid-stream after emitting
some chunks (modelled through the OpenAI backend loop with errAfter), the
consumer observes exactly the chunks emitted before the fault, none of
which is a final chunk, together with the propagated generation error; the
session keeps only the user message append — no assistant message is
persisted, and for a fresh session the history afterwards is exactly the
user message. -/
theorem claim4_midstream_error (st : ChatState) (req : ChatRequest)
    (raw : List RawChunk) (chunks : List StreamChunk) (mid : String) (now : Nat)
    (hrun : openaiGenerateStream req.session_id mid raw true = (chunks, true))
    (hinit : st.initializedFlag = true) (hcap : st.active < st.maxStreams) :
    (processStreamingChatRequest st req true ⟨chunks, true⟩ none now).emitted
      = chunks ∧
    (∀ c ∈ chunks, c.is_final = false) ∧
    (processStreamingChatRequest st req true ⟨chunks, true⟩ none now).outcome
      = .errGeneration ∧
    (processStreamingChatRequest st req true ⟨chunks, true⟩ none now).state.session
      = sessionAfterUser st.session req now ∧
    (st.session.sessions req.session_id = none →
      getSessionMessages
        (processStreamingChatRequest st req true ⟨chunks, true⟩ none now).state.session
        req.session_id none
      = [userMessage req now]) := by
  have hncap : ¬ st.maxStreams ≤ st.active := Nat.not_le.mpr hcap
  have hexec : processStreamingChatRequest st req true ⟨chunks, true⟩ none now
      = ⟨chunks, .errGeneration,
          ⟨st.initializedFlag, st.active, st.maxStreams,
            sessionAfterUser st.session req now⟩⟩ := by
    simp [processStreamingChatRequest, hinit, hncap]
  refine ⟨by rw [hexec], ?_, by rw [hexec], by rw [hexec], ?_⟩
  · exact openaiGo_error_no_final req.session_id mid raw 0 chunks hrun
  · intro hfresh
    rw [hexec]
    exact sessionAfterUser_fresh st.session req now hfresh

/-- Witness for C4: a backend that yields two content chunks and then
raises; on a fresh session the consumer sees exactly those two non-final
chunks, the generation error outcome, and the stored history is just the
user message. -/
theorem claim4_midstream_error_witness :
    (processStreamingChatRequest ⟨true, 0, 4, ⟨fun _ => none, 100⟩⟩
        ⟨"hi", "s", none⟩ true
        ⟨[⟨"He", "s", "m", 0, false⟩, ⟨"llo", "s", "m", 1, false⟩], true⟩
        none 5).emitted
      = [⟨"He", "s", "m", 0, false⟩, ⟨"llo", "s", "m", 1, false⟩] ∧
    (∀ c ∈ ([⟨"He", "s", "m", 0, false⟩, ⟨"llo", "s", "m", 1, false⟩] :
        List StreamChunk), c.is_final = false) ∧
    (processStreamingChatRequest ⟨true, 0, 4, ⟨fun _ => none, 100⟩⟩
        ⟨"hi", "s", none⟩ true
        ⟨[⟨"He", "s", "m", 0, false⟩, ⟨"llo", "s", "m", 1, false⟩], true⟩
        none 5).outcome = .errGeneration ∧
    getSessionMessages
        (processStreamingChatRequest ⟨true, 0, 4, ⟨fun _ => none, 100⟩⟩
          ⟨"hi", "s", none⟩ true
          ⟨[⟨"He", "s", "m", 0, false⟩, ⟨"llo", "s", "m", 1, false⟩], true⟩
          none 5).state.session "s" none
      = [userMessage ⟨"hi", "s", none⟩ 5] := by
  obtain ⟨w1, w2, w3, -, w5⟩ := claim4_midstream_error
    ⟨true, 0, 4, ⟨fun _ => none, 100⟩⟩ ⟨"hi", "s", none⟩
    [⟨true, some "He", none⟩, ⟨true, some "llo", none⟩]
    [⟨"He", "s", "m", 0, false⟩, ⟨"llo", "s", "m", 1, false⟩] "m" 5
    (by decide) rfl (by decide)
  exact ⟨w1, w2, w3, w5 rfl⟩

/-! ## C6: user message survives generation failure -/

/-- Claim C6: in the non-streaming path, a backend generation failure that
occurs after the user message was appended propagates as an error while the
user message stays persisted: the resulting session store is exactly the
store after ensure-session plus the user append (the only failure point
after the append in the embedded path is the backend call), and a fresh
session afterwards holds exactly the user message. -/
theorem claim6_user_message_persisted (st : ChatState) (req : ChatRequest)
    (now : Nat) (hinit : st.initializedFlag = true) :
    (processChatRequest st req true none now).1 = .errGeneration ∧
    (processChatRequest st req true none now).2.session
      = sessionAfterUser st.session req now ∧
    (st.session.sessions req.session_id = none →
      getSessionMessages (processChatRequest st req true none now).2.session
        req.session_id none = [userMessage req now]) := by
  have hexec : processChatRequest st req true none now
      = (.errGeneration,
          ⟨st.initializedFlag, st.active, st.maxStreams,
            sessionAfterUser st.session req now⟩) := by
    simp [processChatRequest, hinit]
  refine ⟨by rw [hexec], by rw [hexec], ?_⟩
  intro hfresh
  rw [hexec]
  exact sessionAfterUser_fresh st.session req now hfresh

/-- Witness for C6: a generation failure on a fresh session leaves exactly
the user message persisted and surfaces the generation error. -/
theorem claim6_user_message_persisted_witness :
    (processChatRequest ⟨true, 0, 5, ⟨fun _ => none, 50⟩⟩ ⟨"hi", "s", none⟩
        true none 7).1 = .errGeneration ∧
    getSessionMessages
        (processChatRequest ⟨true, 0, 5, ⟨fun _ => none, 50⟩⟩ ⟨"hi", "s", none⟩
          true none 7).2.session "s" none
      = [userMessage ⟨"hi", "s", none⟩ 7] := by
  obtain ⟨w1, -, w3⟩ := claim6_user_message_persisted
    ⟨true, 0, 5, ⟨fun _ => none, 50⟩⟩ ⟨"hi", "s", none⟩ 7 rfl
  exact ⟨w1, w3 rfl⟩

/-! ## C10: assistant persistence on normal completion -/

/-- Claim C10: a process_stream call that completes normally yields the ok
outcome and emits the backend chunk sequence; an assistant message is
persisted exactly when the concatenation of the emitted chunk contents is
non-empty after stripping whitespace, and then its content is that
stripped concatenation (with the message_id of the first chunk recorded in
metadata); a whitespace-only or empty total output leaves the session with
only the user append, so a fresh session ends with the user message and no
assistant turn. -/
theorem claim10_stream_persistence (st : ChatState) (req : ChatRequest)
    (run : StreamRun) (now : Nat)
    (hinit : st.initializedFlag = true) (hcap : st.active < st.maxStreams)
    (herr : run.errored = false) :
    (processStreamingChatRequest st req true run none now).outcome = .ok ∧
    (processStreamingChatRequest st req true run none now).emitted = run.chunks ∧
    (pyStrip (fullResponse run.chunks) = "" →
      (processStreamingChatRequest st req true run none now).state.session
        = sessionAfterUser st.session req now) ∧
    (pyStrip (fullResponse run.chunks) ≠ "" →
      (processStreamingChatRequest st req true run none now).state.session
        = (addMessage (sessionAfterUser st.session req now) req.session_id
            (assistantMessage req.session_id (pyStrip (fullResponse run.chunks))
              ((run.chunks.head?).map (fun c => c.message_id)) now) now).1) ∧
    (st.session.sessions req.session_id = none →
      pyStrip (fullResponse run.chunks) = "" →
      getSessionMessages
        (processStreamingChatRequest st req true run none now).state.session
        req.session_id none = [userMessage req now]) := by
  have hncap : ¬ st.maxStreams ≤ st.active := Nat.not_le.mpr hcap
  by_cases hstrip : pyStrip (fullResponse run.chunks) = ""
  · have hexec : processStreamingChatRequest st req true run none now
        = ⟨run.chunks, .ok,
            ⟨st.initializedFlag, st.active, st.maxStreams,
              sessionAfterUser st.session req now⟩⟩ := by
      simp [processStreamingChatRequest, hinit, hncap, herr, hstrip]
    refine ⟨by rw [hexec], by rw [hexec], fun _ => by rw [hexec],
      fun hne => absurd hstrip hne, ?_⟩
    intro hfresh _
    rw [hexec]
    exact sessionAfterUser_fresh st.session req now hfresh
  · have hexec : processStreamingChatRequest st req true run none now
        = ⟨run.chunks, .ok,
            ⟨st.initializedFlag, st.active, st.maxStreams,
              (addMessage (sessionAfterUser st.session req now) req.session_id
                (assistantMessage req.session_id (pyStrip (fullResponse run.chunks))
                  ((run.chunks.head?).map (fun c => c.message_id)) now) now).1⟩⟩ := by
      simp [processStreamingChatRequest, hinit, hncap, herr, hstrip]
    refine ⟨by rw [hexec], by rw [hexec], fun he => absurd he hstrip,
      fun _ => by rw [hexec], fun _ he => absurd he hstrip⟩

/-- Witness for C10: a stream emitting " He", "llo " and the empty final
chunk persists the assistant message with content the stripped
concatenation; the outcome is ok and the chunks pass through to the
consumer. -/
theorem claim10_stream_persistence_witness :
    (processStreamingChatRequest ⟨true, 0, 4, ⟨fun _ => none, 100⟩⟩
        ⟨"hi", "s", none⟩ true
        ⟨[⟨" He", "s", "m", 0, false⟩, ⟨"llo ", "s", "m", 1, false⟩,
            ⟨"", "s", "m", 2, true⟩], false⟩ none 5).outcome = .ok ∧
    (processStreamingChatRequest ⟨true, 0, 4, ⟨fun _ => none, 100⟩⟩
        ⟨"hi", "s", none⟩ true
        ⟨[⟨" He", "s", "m", 0, false⟩, ⟨"llo ", "s", "m", 1, false⟩,
            ⟨"", "s", "m", 2, true⟩], false⟩ none 5).state.session
      = (addMessage
          (sessionAfterUser ⟨fun _ => none, 100⟩ ⟨"hi", "s", none⟩ 5) "s"
          (assistantMessage "s"
            (pyStrip (fullResponse
              [⟨" He", "s", "m", 0, false⟩, ⟨"llo ", "s", "m", 1, false⟩,
                ⟨"", "s", "m", 2, true⟩]))
            (some "m") 5) 5).1 := by
  obtain ⟨w1, -, -, w4, -⟩ := claim10_stream_persistence
    ⟨true, 0, 4, ⟨fun _ => none, 100⟩⟩ ⟨"hi", "s", none⟩
    ⟨[⟨" He", "s", "m", 0, false⟩, ⟨"llo ", "s", "m", 1, false⟩,
        ⟨"", "s", "m", 2, true⟩], false⟩ 5 rfl (by decide) rfl
  exact ⟨w1, w4 (by decide)⟩

end SemaChat
